import Mathlib

/-!
Shallow embedding of `src/app.py` (PyPica): a PIL-based command-line image
processor.  Images are modelled as grids of natural-number samples
(`List (List (List Nat))`: rows of pixels of channel values); PIL's
`Image.point(f)` is modelled per its documented semantics: the function is
applied to each possible sample value and the resulting table is applied to
every band of the image, so the mapped value depends only on the sample's
value, never on its channel position.  Python `float` coefficients are
modelled as exact rationals (`ℚ`); `int(n ** 0.5)` is modelled as `Nat.sqrt`
(they agree for every palette PIL can produce, since a palette has at most
256 entries).  Python exceptions are modelled as a class name plus message
(`PyExc`), and every fallible method returns `Except PyExc _`.
-/

namespace PyPica

/-- Color modes relevant to the program: grayscale `L`, palette-indexed `P`,
`RGB` and `RGBA` (matching PIL mode strings). -/
inductive Mode
  | L
  | P
  | RGB
  | RGBA
deriving DecidableEq

/-- Number of bands (channels) per pixel in each mode. -/
def Mode.bands : Mode → Nat
  | .L => 1
  | .P => 1
  | .RGB => 3
  | .RGBA => 4

/-- The PIL mode string, as interpolated into error messages. -/
def Mode.pyStr : Mode → String
  | .L => "L"
  | .P => "P"
  | .RGB => "RGB"
  | .RGBA => "RGBA"

/-- A raised Python exception: its class name and its message.  Every raise
site in `app.py` uses `ValueError`; `list.index` on a missing element also
raises `ValueError`. -/
structure PyExc where
  cls : String
  msg : String
deriving DecidableEq

/-- An image handle: mode, size, pixel grid (rows of pixels of channel
values) and optional flat palette (`getpalette()` result). -/
structure Img where
  mode : Mode
  width : Nat
  height : Nat
  pixels : List (List (List Nat))
  palette : Option (List Nat)
deriving DecidableEq

/-- Well-formedness: the grid agrees with the declared size, every pixel has
`mode.bands` channels, and every sample is an 8-bit value. -/
def Img.Wf (img : Img) : Prop :=
  img.pixels.length = img.height ∧
    ∀ row ∈ img.pixels, row.length = img.width ∧
      ∀ p ∈ row, p.length = img.mode.bands ∧ ∀ v ∈ p, v ≤ 255

instance (img : Img) : Decidable img.Wf := by
  unfold Img.Wf; infer_instance

/-- The pixel (channel list) at column `x`, row `y`. -/
def Img.pixelAt (img : Img) (x y : Nat) : List Nat :=
  (img.pixels.getD y []).getD x []

/-- The sample value at column `x`, row `y`, channel `c`. -/
def Img.sampleAt (img : Img) (x y c : Nat) : Nat :=
  (img.pixelAt x y).getD c 0

/-- PIL `Image.point(f)` with an integer-valued function: the lookup table
`[f(i) for i in range(256)]` is replicated for each band and applied to every
sample of the image by value. -/
def Img.point (img : Img) (f : Nat → Nat) : Img :=
  { img with pixels := img.pixels.map (fun row => row.map (fun p => p.map f)) }

/-- Luminance of one pixel, as in PIL `convert('L')`: ITU-R 601-2 with the
fixed-point rounding PIL uses, `(19595 R + 38470 G + 7471 B + 32768) >> 16`.
A grayscale pixel is unchanged; a palette-indexed pixel is resolved through
the palette first. -/
def lumaOfPixel (mode : Mode) (palette : Option (List Nat)) (p : List Nat) : Nat :=
  match mode with
  | .L => p.getD 0 0
  | .RGB =>
      (19595 * p.getD 0 0 + 38470 * p.getD 1 0 + 7471 * p.getD 2 0 + 32768) / 65536
  | .RGBA =>
      (19595 * p.getD 0 0 + 38470 * p.getD 1 0 + 7471 * p.getD 2 0 + 32768) / 65536
  | .P =>
      let q := palette.getD []
      let i := p.getD 0 0
      (19595 * q.getD (3 * i) 0 + 38470 * q.getD (3 * i + 1) 0
        + 7471 * q.getD (3 * i + 2) 0 + 32768) / 65536

/-- PIL `convert('L')`: a single-band luminance view of the image. -/
def Img.convertL (img : Img) : Img :=
  { mode := .L
    width := img.width
    height := img.height
    pixels := img.pixels.map (fun row =>
      row.map (fun p => [lumaOfPixel img.mode img.palette p]))
    palette := none }

/-- PIL `Image.crop((l, u, r, lo))` for a box inside the image: the region
`[l, r) × [u, lo)`, of size `(r - l) × (lo - u)`. -/
def Img.cropBox (img : Img) (l u r lo : Nat) : Img :=
  { mode := img.mode
    width := r - l
    height := lo - u
    pixels := ((img.pixels.drop u).take (lo - u)).map
      (fun row => (row.drop l).take (r - l))
    palette := img.palette }

/-- Message of the first `crop_image` error (out-of-range coordinates); it
names the actual image dimensions, as in the source f-string. -/
def cropDimsMsg (w h : Nat) : String :=
  "Invalid crop dimensions. Image dimensions are " ++ toString w ++ "x"
    ++ toString h ++ "." ++ " Please provide crop dimensions within these bounds."

/-- Message of the second `crop_image` error (misordered coordinates). -/
def cropOrderMsg : String :=
  "Invalid crop dimensions. Please ensure that left < right and upper < lower."

/-- The `ValueError` raised by the bounds check of `crop_image`. -/
def cropDimsError (w h : Nat) : PyExc :=
  ⟨"ValueError", cropDimsMsg w h⟩

/-- The `ValueError` raised by the ordering check of `crop_image`. -/
def cropOrderError : PyExc :=
  ⟨"ValueError", cropOrderMsg⟩

/-- Model of `ImageProcessor.crop_image`: validates the box, then crops.  The result
pair is `(self.image after the call, the image that is saved)`; the method
never reassigns `self.image`. -/
def crop_image (img : Img) (left upper right lower : Int) : Except PyExc (Img × Img) :=
  let width := img.width
  let height := img.height
  if left < 0 ∨ upper < 0 ∨ right > (width : Int) ∨ lower > (height : Int) then
    .error (cropDimsError width height)
  else if left ≥ right ∨ upper ≥ lower then
    .error cropOrderError
  else
    .ok (img, img.cropBox left.toNat upper.toNat right.toNat lower.toNat)

/-- The `ValueError` raised by Python's `list.index` when the element is
absent, as in `x_projection.index(True)` on a contentless image. -/
def indexMissingError : PyExc :=
  ⟨"ValueError", "True is not in list"⟩

/-- Python `list.index(True)`: position of the first `True`, or the
`ValueError` CPython raises when there is none. -/
def indexTrue : List Bool → Except PyExc Nat
  | [] => .error indexMissingError
  | b :: bs => if b then .ok 0 else (indexTrue bs).map (· + 1)

/-- The binarization table of `crop_empty`: `lambda p: int(p > 0)`. -/
def binLut (v : Nat) : Nat :=
  if 0 < v then 1 else 0

/-- The x-projection of `crop_empty`: for each column, whether any row holds
a truthy (nonzero) sample of the binarized image. -/
def xProjection (bin : Img) : List Bool :=
  (List.range bin.width).map (fun x =>
    (List.range bin.height).any (fun y => bin.sampleAt x y 0 != 0))

/-- The y-projection of `crop_empty`: for each row, whether any column holds
a truthy (nonzero) sample of the binarized image. -/
def yProjection (bin : Img) : List Bool :=
  (List.range bin.height).map (fun y =>
    (List.range bin.width).any (fun x => bin.sampleAt x y 0 != 0))

/-- Model of `ImageProcessor.crop_empty`: luminance view, binarize by `> 0`, project
onto both axes, take the first/last `True` of each projection, crop the
working image to that box and replace `self.image` with the result.  The
result pair is `(self.image after the call, the image that is saved)`; both
components are the cropped image. -/
def crop_empty (img : Img) : Except PyExc (Img × Img) :=
  let bin := img.convertL.point binLut
  let xs := xProjection bin
  let ys := yProjection bin
  match indexTrue xs with
  | .error e => .error e
  | .ok left =>
    match indexTrue xs.reverse with
    | .error e => .error e
    | .ok rrev =>
      let right := xs.length - rrev
      match indexTrue ys with
      | .error e => .error e
      | .ok upper =>
        match indexTrue ys.reverse with
        | .error e => .error e
        | .ok lrev =>
          let lower := ys.length - lrev
          let c := img.cropBox left upper right lower
          .ok (c, c)

/-- The `ValueError` raised by `get_palette` when `getpalette()` is `None`. -/
def noPaletteError : PyExc :=
  ⟨"ValueError", "Image does not have a palette."⟩

/-- Model of `ImageProcessor.get_palette`: lays the palette entries out on a square
grid in row-major order.  `num_colors = len(palette) // 3`; the side is
`int(num_colors ** 0.5)` (modelled as `Nat.sqrt`, exact for any PIL palette)
rounded up to the next integer unless it is an exact square root.
`Image.new('RGB', ...)` starts all-black; only cells with `index < n` are
overwritten. -/
def get_palette (img : Img) : Except PyExc Img :=
  match img.palette with
  | none => .error noPaletteError
  | some palette =>
    let num_colors := palette.length / 3
    let side := Nat.sqrt num_colors
    let actual_side := if side * side = num_colors then side else side + 1
    .ok { mode := .RGB
          width := actual_side
          height := actual_side
          pixels := (List.range actual_side).map (fun y =>
            (List.range actual_side).map (fun x =>
              let color_index := y * actual_side + x
              if color_index < num_colors then
                [palette.getD (color_index * 3) 0,
                 palette.getD (color_index * 3 + 1) 0,
                 palette.getD (color_index * 3 + 2) 0]
              else [0, 0, 0]))
          palette := none }

/-- The `ValueError` raised by the mode check of `adjust_colors`. -/
def adjustModeError (m : Mode) : PyExc :=
  ⟨"ValueError", "Unsupported image mode for color adjustment: " ++ m.pyStr⟩

/-- The lookup table of `adjust_colors`, `lambda i: i * coefficients[i % 3]`:
PIL calls it on each possible sample value `i`, so the coefficient is chosen
by the sample's value modulo 3.  The products are kept exact (pre-clamping). -/
def adjustLut (rc gc bc : ℚ) (i : Nat) : ℚ :=
  (i : ℚ) * ([rc, gc, bc].getD (i % 3) 0)

/-- Model of `ImageProcessor.adjust_colors`: mode check, then `point` with
`adjustLut`, the same table applied to every band (alpha included).  Returns
the grid of exact pre-clamp products that the saved image quantizes. -/
def adjust_colors (img : Img) (rc gc bc : ℚ) :
    Except PyExc (List (List (List ℚ))) :=
  if img.mode = .RGB ∨ img.mode = .RGBA then
    .ok (img.pixels.map (fun row => row.map (fun p => p.map (adjustLut rc gc bc))))
  else
    .error (adjustModeError img.mode)

/-- Sample of an `adjust_colors` result at column `x`, row `y`, channel `c`
(`none` when the call failed). -/
def adjSampleAt (r : Except PyExc (List (List (List ℚ)))) (x y c : Nat) : Option ℚ :=
  match r with
  | .error _ => none
  | .ok g => some (((g.getD y []).getD x []).getD c 0)

/-- The `ValueError` raised by the mode check of `invert_colors`. -/
def invertModeError (m : Mode) : PyExc :=
  ⟨"ValueError", "Unsupported image mode for color inversion: " ++ m.pyStr⟩

/-- Model of `ImageProcessor.invert_colors`: mode check, then `point` with
`lambda i: 255 - i`, the same table applied to every band (alpha included). -/
def invert_colors (img : Img) : Except PyExc Img :=
  if img.mode = .RGB ∨ img.mode = .RGBA then
    .ok (img.point (fun i => 255 - i))
  else
    .error (invertModeError img.mode)

/-- The `ValueError` raised by `ImageProcessor.__init__` for a missing file. -/
def fileNotFoundError (image_path : String) : PyExc :=
  ⟨"ValueError", "File not found: " ++ image_path⟩

/-- Model of the file check of `ImageProcessor.__init__`, with `os.path.isfile` abstracted
to the boolean it returns on the given path. -/
def checkFile (isfile : Bool) (image_path : String) : Except PyExc Unit :=
  if isfile then .ok () else .error (fileNotFoundError image_path)

/-! Spec-side formulation of the auto-crop bounding box, for comparison with
the source embedding `crop_empty`. -/

/-- Spec formulation (§4.4): a pixel of the luminance view is content iff its
value is strictly greater than 0. -/
def spec_content (img : Img) (x y : Nat) : Bool :=
  decide (0 < img.convertL.sampleAt x y 0)

/-- Spec formulation (§4.4): for every column, whether any row contains a
content pixel. -/
def spec_xproj (img : Img) : List Bool :=
  (List.range img.width).map (fun x =>
    (List.range img.height).any (fun y => spec_content img x y))

/-- Spec formulation (§4.4): for every row, whether any column contains a
content pixel. -/
def spec_yproj (img : Img) : List Bool :=
  (List.range img.height).map (fun y =>
    (List.range img.width).any (fun x => spec_content img x y))

/-- Spec formulation: `left` = index of the first `True` in the x-projection. -/
def spec_left (img : Img) : Nat :=
  (spec_xproj img).indexOf true

/-- Spec formulation: `right` = projection length minus the index of the
first `True` scanning from the end. -/
def spec_right (img : Img) : Nat :=
  (spec_xproj img).length - (spec_xproj img).reverse.indexOf true

/-- Spec formulation: `upper` = index of the first `True` in the y-projection. -/
def spec_upper (img : Img) : Nat :=
  (spec_yproj img).indexOf true

/-- Spec formulation: `lower` = projection length minus the index of the
first `True` scanning from the end. -/
def spec_lower (img : Img) : Nat :=
  (spec_yproj img).length - (spec_yproj img).reverse.indexOf true

/-! Helper lemmas about grid access. -/

/-- Lemma: `getD` after `map`, when the supplied default is the image of the
dropped-out default. -/
theorem getD_map_fix {α β : Type} (f : α → β) (d : α) (e : β) (hfd : f d = e) :
    ∀ (l : List α) (i : Nat), (l.map f).getD i e = f (l.getD i d)
  | [], i => by simp [List.getD, hfd]
  | a :: l, 0 => rfl
  | a :: l, i + 1 => by
      simpa using getD_map_fix f d e hfd l i

/-- Lemma: `point` acts samplewise whenever the table fixes the default sample 0. -/
theorem Img.sampleAt_point (img : Img) (f : Nat → Nat) (hf : f 0 = 0)
    (x y c : Nat) : (img.point f).sampleAt x y c = f (img.sampleAt x y c) := by
  unfold Img.point Img.sampleAt Img.pixelAt
  dsimp only
  rw [getD_map_fix (fun (row : List (List Nat)) => row.map (fun p => p.map f))
        ([] : List (List Nat)) ([] : List (List Nat)) rfl img.pixels y,
    getD_map_fix (fun (p : List Nat) => p.map f) ([] : List Nat) ([] : List Nat) rfl,
    getD_map_fix f 0 0 hf]

/-- Lemma: `indexTrue` succeeds exactly as Python's `list.index`, returning the
index of the first `True`. -/
theorem indexTrue_of_mem : ∀ (l : List Bool), true ∈ l →
    indexTrue l = .ok (l.indexOf true)
  | [], h => by simp at h
  | b :: l, h => by
      cases b with
      | true => simp [indexTrue, List.indexOf_cons]
      | false =>
          have hl : true ∈ l := by simpa using h
          simp [indexTrue, List.indexOf_cons, Except.map, indexTrue_of_mem l hl]

/-- Lemma: `indexTrue` fails exactly as Python's `list.index`, raising when there is
no `True`. -/
theorem indexTrue_of_not_mem : ∀ (l : List Bool), true ∉ l →
    indexTrue l = .error indexMissingError
  | [], _ => rfl
  | b :: l, h => by
      cases b with
      | true => simp at h
      | false =>
          have hl : true ∉ l := fun hm => h (List.mem_cons_of_mem _ hm)
          simp [indexTrue, Except.map, indexTrue_of_not_mem l hl]

/-- The binarized truthiness test of the source equals the spec's content
predicate. -/
theorem binarized_eq_spec_content (img : Img) (x y : Nat) :
    ((img.convertL.point binLut).sampleAt x y 0 != 0) = spec_content img x y := by
  rw [Img.sampleAt_point _ _ rfl]
  unfold spec_content binLut
  by_cases h : 0 < img.convertL.sampleAt x y 0 <;> simp [h]

/-- The source x-projection of the binarized luminance view is the spec's
x-projection. -/
theorem xProjection_eq_spec (img : Img) :
    xProjection (img.convertL.point binLut) = spec_xproj img := by
  unfold xProjection spec_xproj
  congr 1
  funext x
  congr 1
  funext y
  exact binarized_eq_spec_content img x y

/-- The source y-projection of the binarized luminance view is the spec's
y-projection. -/
theorem yProjection_eq_spec (img : Img) :
    yProjection (img.convertL.point binLut) = spec_yproj img := by
  unfold yProjection spec_yproj
  congr 1
  funext y
  congr 1
  funext x
  exact binarized_eq_spec_content img x y

/-- A content pixel puts a `True` into the x-projection. -/
theorem true_mem_spec_xproj (img : Img) (x y : Nat) (hx : x < img.width)
    (hy : y < img.height) (hc : spec_content img x y = true) :
    true ∈ spec_xproj img := by
  unfold spec_xproj
  refine List.mem_map.mpr ⟨x, List.mem_range.mpr hx, ?_⟩
  exact List.any_eq_true.mpr ⟨y, List.mem_range.mpr hy, hc⟩

/-- A content pixel puts a `True` into the y-projection. -/
theorem true_mem_spec_yproj (img : Img) (x y : Nat) (hx : x < img.width)
    (hy : y < img.height) (hc : spec_content img x y = true) :
    true ∈ spec_yproj img := by
  unfold spec_yproj
  refine List.mem_map.mpr ⟨y, List.mem_range.mpr hy, ?_⟩
  exact List.any_eq_true.mpr ⟨x, List.mem_range.mpr hx, hc⟩

/-! Concrete example images used by witnesses and counterexamples. -/

/-- A 2×2 RGB image whose only content pixel (luminance 255) is at (1, 0). -/
def exContent : Img :=
  ⟨.RGB, 2, 2, [[[0, 0, 0], [255, 255, 255]], [[0, 0, 0], [0, 0, 0]]], none⟩

/-- A 1×1 all-black RGB image: no pixel has luminance above 0. -/
def exBlack : Img :=
  ⟨.RGB, 1, 1, [[[0, 0, 0]]], none⟩

/-- C2: `crop_empty` computes its bounding box as specified: content is
luminance strictly above 0, `left`/`upper` are the first `True` of the
x/y-projection, `right`/`lower` are the projection length minus the index of
the first `True` from the end, and the working handle is cropped to exactly
`(left, upper, right, lower)`. -/
theorem C2_autocrop_bounding_box (img : Img) (x y : Nat)
    (hx : x < img.width) (hy : y < img.height)
    (hc : spec_content img x y = true) :
    crop_empty img =
      .ok (img.cropBox (spec_left img) (spec_upper img) (spec_right img) (spec_lower img),
        img.cropBox (spec_left img) (spec_upper img) (spec_right img) (spec_lower img)) := by
  have hxm : true ∈ spec_xproj img := true_mem_spec_xproj img x y hx hy hc
  have hym : true ∈ spec_yproj img := true_mem_spec_yproj img x y hx hy hc
  have hxr : true ∈ (spec_xproj img).reverse := List.mem_reverse.mpr hxm
  have hyr : true ∈ (spec_yproj img).reverse := List.mem_reverse.mpr hym
  simp only [crop_empty, xProjection_eq_spec, yProjection_eq_spec,
    indexTrue_of_mem _ hxm, indexTrue_of_mem _ hxr,
    indexTrue_of_mem _ hym, indexTrue_of_mem _ hyr]
  rfl

/-- Witness for C2 at a concrete image with one content pixel. -/
theorem C2_autocrop_bounding_box_witness :
    crop_empty exContent =
      .ok (exContent.cropBox (spec_left exContent) (spec_upper exContent)
            (spec_right exContent) (spec_lower exContent),
        exContent.cropBox (spec_left exContent) (spec_upper exContent)
            (spec_right exContent) (spec_lower exContent)) :=
  C2_autocrop_bounding_box exContent 1 0 (by decide) (by decide) (by decide)

/-- C3: on an image with no pixel of luminance above 0, `crop_empty` fails
(the `first True` lookup finds nothing), raising the error the spec calls
`NoContentFoundError`, instead of proceeding with an undefined box. -/
theorem C3_autocrop_empty_image_fails (img : Img)
    (h : ∀ x < img.width, ∀ y < img.height, img.convertL.sampleAt x y 0 = 0) :
    crop_empty img = .error indexMissingError := by
  have hnm : true ∉ xProjection (img.convertL.point binLut) := by
    rw [xProjection_eq_spec]
    intro hm
    rcases List.mem_map.mp hm with ⟨x, hxr, hfx⟩
    rcases List.any_eq_true.mp hfx with ⟨y, hyr, hcy⟩
    have hx := List.mem_range.mp hxr
    have hy := List.mem_range.mp hyr
    unfold spec_content at hcy
    rw [h x hx y hy] at hcy
    simp at hcy
  simp only [crop_empty, indexTrue_of_not_mem _ hnm]

/-- Witness for C3 at a concrete all-black image. -/
theorem C3_autocrop_empty_image_fails_witness :
    crop_empty exBlack = .error indexMissingError :=
  C3_autocrop_empty_image_fails exBlack (by decide)

/-- Pixels of a crop: for a box inside the image, pixel `(x, y)` of the crop
is pixel `(l + x, u + y)` of the source. -/
theorem pixelAt_cropBox (img : Img) (l u r lo x y : Nat)
    (hlen : img.pixels.length = img.height)
    (hrow : ∀ row ∈ img.pixels, row.length = img.width)
    (hr : r ≤ img.width) (hlo : lo ≤ img.height)
    (hx : x < r - l) (hy : y < lo - u) :
    (img.cropBox l u r lo).pixelAt x y = img.pixelAt (l + x) (u + y) := by
  unfold Img.cropBox Img.pixelAt
  dsimp only
  have h1 : y < ((img.pixels.drop u).take (lo - u)).length := by
    simp only [List.length_take, List.length_drop, hlen]
    omega
  have h1m : y < (((img.pixels.drop u).take (lo - u)).map
      (fun row => (row.drop l).take (r - l))).length := by simpa using h1
  have h2 : u + y < img.pixels.length := by omega
  rw [List.getD_eq_getElem _ _ h1m, List.getElem_map, List.getElem_take,
    List.getElem_drop, List.getD_eq_getElem _ _ h2]
  have hw : (img.pixels[u + y]).length = img.width :=
    hrow _ (List.getElem_mem h2)
  have h3 : x < ((img.pixels[u + y].drop l).take (r - l)).length := by
    simp only [List.length_take, List.length_drop, hw]
    omega
  have h4 : l + x < (img.pixels[u + y]).length := by omega
  rw [List.getD_eq_getElem _ _ h3, List.getElem_take, List.getElem_drop,
    List.getD_eq_getElem _ _ h4]

/-- C4: `crop_image` rejects invalid parameters with the `ValueError`s the
spec groups as `InvalidBoundsError`: any coordinate outside
`[0,width]`×`[0,height]` makes it fail (and whenever the first check —
which names the actual image dimensions and is performed first — fires, its
error is the one raised), and any otherwise-in-bounds box with
`left ≥ right` or `upper ≥ lower` fails with the ordering error. -/
theorem C4_crop_rejects_invalid_bounds (img : Img) (l u r lo : Int) :
    ((l < 0 ∨ l > (img.width : Int) ∨ r < 0 ∨ r > (img.width : Int) ∨
      u < 0 ∨ u > (img.height : Int) ∨ lo < 0 ∨ lo > (img.height : Int)) →
      ∃ e, crop_image img l u r lo = .error e ∧
        (e = cropDimsError img.width img.height ∨ e = cropOrderError)) ∧
    ((l < 0 ∨ u < 0 ∨ r > (img.width : Int) ∨ lo > (img.height : Int)) →
      crop_image img l u r lo = .error (cropDimsError img.width img.height)) ∧
    ((0 ≤ l ∧ l ≤ (img.width : Int) ∧ 0 ≤ r ∧ r ≤ (img.width : Int) ∧
      0 ≤ u ∧ u ≤ (img.height : Int) ∧ 0 ≤ lo ∧ lo ≤ (img.height : Int)) →
      (l ≥ r ∨ u ≥ lo) →
      crop_image img l u r lo = .error cropOrderError) := by
  refine ⟨?_, ?_, ?_⟩
  · intro h
    by_cases hf : l < 0 ∨ u < 0 ∨ r > (img.width : Int) ∨ lo > (img.height : Int)
    · refine ⟨cropDimsError img.width img.height, ?_, Or.inl rfl⟩
      simp only [crop_image]
      rw [if_pos hf]
    · refine ⟨cropOrderError, ?_, Or.inr rfl⟩
      have ho : l ≥ r ∨ u ≥ lo := by omega
      simp only [crop_image]
      rw [if_neg hf, if_pos ho]
  · intro hf
    simp only [crop_image]
    rw [if_pos hf]
  · intro hin ho
    have hf : ¬(l < 0 ∨ u < 0 ∨ r > (img.width : Int) ∨ lo > (img.height : Int)) := by
      omega
    simp only [crop_image]
    rw [if_neg hf, if_pos ho]

/-- Witness for C4: a coordinate beyond the right edge, a negative
coordinate, and a misordered in-bounds box on the 1×1 image. -/
theorem C4_crop_rejects_invalid_bounds_witness :
    (∃ e, crop_image exBlack 2 0 1 1 = .error e ∧
      (e = cropDimsError exBlack.width exBlack.height ∨ e = cropOrderError)) ∧
    crop_image exBlack (-1) 0 1 1 = .error (cropDimsError exBlack.width exBlack.height) ∧
    crop_image exBlack 0 0 0 1 = .error cropOrderError :=
  ⟨(C4_crop_rejects_invalid_bounds exBlack 2 0 1 1).1 (by decide),
   (C4_crop_rejects_invalid_bounds exBlack (-1) 0 1 1).2.1 (by decide),
   (C4_crop_rejects_invalid_bounds exBlack 0 0 0 1).2.2 (by decide) (by decide)⟩

/-- C5: every valid box `0 ≤ left < right ≤ width`, `0 ≤ upper < lower ≤
height` makes `crop_image` succeed without touching the working handle; the
output has dimensions `(right - left, lower - upper)` and holds exactly the
pixel region `[left, right) × [upper, lower)`. -/
theorem C5_valid_crop_dimensions (img : Img) (l u r lo : Int) (hwf : img.Wf)
    (h0l : 0 ≤ l) (hlr : l < r) (hrw : r ≤ (img.width : Int))
    (h0u : 0 ≤ u) (hulo : u < lo) (hloh : lo ≤ (img.height : Int)) :
    ∃ out, crop_image img l u r lo = .ok (img, out) ∧
      (out.width : Int) = r - l ∧ (out.height : Int) = lo - u ∧
      ∀ x y, x < out.width → y < out.height →
        out.pixelAt x y = img.pixelAt (l.toNat + x) (u.toNat + y) := by
  have hf : ¬(l < 0 ∨ u < 0 ∨ r > (img.width : Int) ∨ lo > (img.height : Int)) := by
    omega
  have ho : ¬(l ≥ r ∨ u ≥ lo) := by omega
  refine ⟨img.cropBox l.toNat u.toNat r.toNat lo.toNat, ?_, ?_, ?_, ?_⟩
  · simp only [crop_image]
    rw [if_neg hf, if_neg ho]
  · show ((r.toNat - l.toNat : Nat) : Int) = r - l
    omega
  · show ((lo.toNat - u.toNat : Nat) : Int) = lo - u
    omega
  · intro x y hx hy
    exact pixelAt_cropBox img l.toNat u.toNat r.toNat lo.toNat x y hwf.1
      (fun row hm => (hwf.2 row hm).1) (by omega) (by omega) hx hy

/-- Witness for C5: cropping the top-left 1×1 region of the 2×2 image. -/
theorem C5_valid_crop_dimensions_witness :
    ∃ out, crop_image exContent 0 0 1 1 = .ok (exContent, out) ∧
      (out.width : Int) = 1 - 0 ∧ (out.height : Int) = 1 - 0 ∧
      ∀ x y, x < out.width → y < out.height →
        out.pixelAt x y = exContent.pixelAt ((0 : Int).toNat + x) ((0 : Int).toNat + y) :=
  C5_valid_crop_dimensions exContent 0 0 1 1 (by decide) (by decide) (by decide)
    (by decide) (by decide) (by decide) (by decide)

/-- C6: `crop_image` never reassigns the working handle (the state component
of a successful call is the untouched input image, the saved crop being a
separate handle), while `crop_empty` replaces the working handle with the
cropped image it saves, so later operations of the same run receive the
cropped state. -/
theorem C6_crop_frame_effects :
    (∀ (img : Img) (l u r lo : Int) (st out : Img),
      crop_image img l u r lo = .ok (st, out) → st = img) ∧
    (∀ (img : Img) (st out : Img),
      crop_empty img = .ok (st, out) → st = out) := by
  constructor
  · intro img l u r lo st out h
    simp only [crop_image] at h
    split at h
    · simp at h
    · split at h
      · simp at h
      · simp only [Except.ok.injEq, Prod.mk.injEq] at h
        exact h.1.symm
  · intro img st out h
    simp only [crop_empty] at h
    split at h
    · simp at h
    · split at h
      · simp at h
      · split at h
        · simp at h
        · split at h
          · simp at h
          · simp only [Except.ok.injEq, Prod.mk.injEq] at h
            rw [← h.1, ← h.2]

/-- Witness for C6: a successful rectangular crop and a successful auto-crop
of the 2×2 example image. -/
theorem C6_crop_frame_effects_witness :
    crop_image exContent 0 0 1 1 = .ok (exContent, exContent.cropBox 0 0 1 1) ∧
    exContent = exContent ∧
    crop_empty exContent = .ok (exContent.cropBox 1 0 2 1, exContent.cropBox 1 0 2 1) ∧
    exContent.cropBox 1 0 2 1 = exContent.cropBox 1 0 2 1 :=
  ⟨rfl,
   C6_crop_frame_effects.1 exContent 0 0 1 1 exContent (exContent.cropBox 0 0 1 1) rfl,
   rfl,
   C6_crop_frame_effects.2 exContent (exContent.cropBox 1 0 2 1)
     (exContent.cropBox 1 0 2 1) rfl⟩

/-- Lemma: `getD` after `map` at an in-range index, for arbitrary defaults. -/
theorem getD_map_lt {α β : Type} (f : α → β) (d : α) (e : β) (l : List α) (i : Nat)
    (h : i < l.length) : (l.map f).getD i e = f (l.getD i d) := by
  rw [List.getD_eq_getElem _ _ (by simpa using h), List.getElem_map,
    List.getD_eq_getElem _ _ h]

/-- Lemma: `point` acts samplewise at every in-range position of a size-consistent
image. -/
theorem Img.sampleAt_point_lt (img : Img) (f : Nat → Nat) (x y c : Nat)
    (hlen : img.pixels.length = img.height)
    (hrow : ∀ row ∈ img.pixels, row.length = img.width)
    (hpix : ∀ row ∈ img.pixels, ∀ p ∈ row, p.length = img.mode.bands)
    (hx : x < img.width) (hy : y < img.height) (hc : c < img.mode.bands) :
    (img.point f).sampleAt x y c = f (img.sampleAt x y c) := by
  have hy' : y < img.pixels.length := by omega
  have hmemr : img.pixels.getD y [] ∈ img.pixels := by
    rw [List.getD_eq_getElem _ _ hy']
    exact List.getElem_mem hy'
  have hx' : x < (img.pixels.getD y []).length := by
    rw [hrow _ hmemr]; exact hx
  have hmemp : (img.pixels.getD y []).getD x [] ∈ img.pixels.getD y [] := by
    rw [List.getD_eq_getElem _ _ hx']
    exact List.getElem_mem hx'
  have hc' : c < ((img.pixels.getD y []).getD x []).length := by
    rw [hpix _ hmemr _ hmemp]; exact hc
  unfold Img.point Img.sampleAt Img.pixelAt
  dsimp only
  rw [getD_map_lt (fun (row : List (List Nat)) => row.map (fun p => p.map f))
      ([] : List (List Nat)) ([] : List (List Nat)) _ _ hy']
  rw [getD_map_lt (fun (p : List Nat) => p.map f) ([] : List Nat) ([] : List Nat) _ _ hx']
  rw [getD_map_lt f 0 0 _ _ hc']

/-- Mapping a function that fixes every member of a list is the identity. -/
theorem map_id_of_mem {α : Type} (l : List α) (f : α → α) (h : ∀ a ∈ l, f a = a) :
    l.map f = l := by
  induction l with
  | nil => rfl
  | cons a t ih =>
      simp only [List.map_cons, h a (List.mem_cons_self a t),
        ih (fun b hb => h b (List.mem_cons_of_mem a hb))]

/-- C7: `invert_colors` maps every in-range sample (alpha included) to
`255 - v` and is involutive: a second inversion returns the image with the
original pixel values. -/
theorem C7_invert_involutive (img : Img) (hwf : img.Wf)
    (hm : img.mode = .RGB ∨ img.mode = .RGBA) :
    ∃ out, invert_colors img = .ok out ∧
      (∀ x y c, x < img.width → y < img.height → c < img.mode.bands →
        out.sampleAt x y c = 255 - img.sampleAt x y c) ∧
      invert_colors out = .ok img := by
  obtain ⟨hlen, hrows⟩ := hwf
  refine ⟨img.point (fun i => 255 - i), ?_, ?_, ?_⟩
  · simp only [invert_colors]
    rw [if_pos hm]
  · intro x y c hx hy hc
    exact img.sampleAt_point_lt _ x y c hlen (fun r h => (hrows r h).1)
      (fun r h p hp => ((hrows r h).2 p hp).1) hx hy hc
  · have hm2 : (img.point (fun i => 255 - i)).mode = Mode.RGB ∨
        (img.point (fun i => 255 - i)).mode = Mode.RGBA := hm
    simp only [invert_colors]
    rw [if_pos hm2]
    have hpx : ((img.point (fun i => 255 - i)).point (fun i => 255 - i)).pixels
        = img.pixels := by
      simp only [Img.point, List.map_map]
      apply map_id_of_mem
      intro row hr
      simp only [Function.comp, List.map_map]
      apply map_id_of_mem
      intro p hp
      simp only [Function.comp, List.map_map]
      apply map_id_of_mem
      intro v hv
      have hb : v ≤ 255 := ((hrows row hr).2 p hp).2 v hv
      simp only [Function.comp]
      omega
    have : (img.point (fun i => 255 - i)).point (fun i => 255 - i) = img := by
      cases img with
      | mk m w h px pal =>
          simp only [Img.point] at hpx ⊢
          rw [show (List.map (fun row => List.map (fun p => List.map (fun i => 255 - i) p) row)
            px).map (fun row => List.map (fun p => List.map (fun i => 255 - i) p) row) = px
            from hpx]
    rw [this]

/-- A 1×1 grayscale image, unsupported by the color operations. -/
def exGray : Img :=
  ⟨.L, 1, 1, [[[5]]], none⟩

/-- Witness for C7 at the 2×2 RGB example image. -/
theorem C7_invert_involutive_witness :
    ∃ out, invert_colors exContent = .ok out ∧
      (∀ x y c, x < exContent.width → y < exContent.height → c < exContent.mode.bands →
        out.sampleAt x y c = 255 - exContent.sampleAt x y c) ∧
      invert_colors out = .ok exContent :=
  C7_invert_involutive exContent (by decide) (by decide)

/-- C8: `adjust_colors` and `invert_colors` fail with the unsupported-mode
`ValueError` on grayscale and palette images, and their mode check passes on
every RGB or RGBA image. -/
theorem C8_unsupported_mode (img : Img) (rc gc bc : ℚ) :
    ((img.mode = .L ∨ img.mode = .P) →
      adjust_colors img rc gc bc = .error (adjustModeError img.mode) ∧
      invert_colors img = .error (invertModeError img.mode)) ∧
    ((img.mode = .RGB ∨ img.mode = .RGBA) →
      (∃ g, adjust_colors img rc gc bc = .ok g) ∧
      (∃ out, invert_colors img = .ok out)) := by
  constructor
  · intro h
    have hne : ¬(img.mode = .RGB ∨ img.mode = .RGBA) := by
      rcases h with h | h <;> simp [h]
    constructor
    · simp only [adjust_colors]
      rw [if_neg hne]
    · simp only [invert_colors]
      rw [if_neg hne]
  · intro h
    constructor
    · refine ⟨img.pixels.map (fun row => row.map (fun p => p.map (adjustLut rc gc bc))), ?_⟩
      simp only [adjust_colors]
      rw [if_pos h]
    · refine ⟨img.point (fun i => 255 - i), ?_⟩
      simp only [invert_colors]
      rw [if_pos h]

/-- Witness for C8 at a grayscale image and an RGB image. -/
theorem C8_unsupported_mode_witness :
    (adjust_colors exGray 1 1 1 = .error (adjustModeError exGray.mode) ∧
      invert_colors exGray = .error (invertModeError exGray.mode)) ∧
    ((∃ g, adjust_colors exContent 1 1 1 = .ok g) ∧
      (∃ out, invert_colors exContent = .ok out)) :=
  ⟨(C8_unsupported_mode exGray 1 1 1).1 (Or.inl rfl),
   (C8_unsupported_mode exContent 1 1 1).2 (Or.inl rfl)⟩

/-- A 1×1 RGB image whose red sample is 10: the channel-index-mod-3 reading
and the value-mod-3 reading of `adjust_colors` disagree on it. -/
def exAdjust : Img :=
  ⟨.RGB, 1, 1, [[[10, 0, 0]]], none⟩

/-- C1 counterexample: on `exAdjust` with coefficients (1, 2, 3), the red
sample (channel index 0, value 10) is multiplied by `coefficients[10 % 3]`,
the green coefficient 2, yielding 20 — not by `coefficients[0 % 3]` as the
claim states, which would yield 10. -/
theorem C1_counterexample :
    adjSampleAt (adjust_colors exAdjust 1 2 3) 0 0 0 ≠
      some ((exAdjust.sampleAt 0 0 0 : ℚ) * ([(1 : ℚ), 2, 3].getD (0 % 3) 0)) ∧
    adjSampleAt (adjust_colors exAdjust 1 2 3) 0 0 0 = some 20 := by
  constructor
  · intro h
    simp only [adjust_colors, exAdjust, adjSampleAt, adjustLut, Img.sampleAt,
      Img.pixelAt, List.map, List.getD, List.get?, Option.getD] at h
    norm_num at h
  · simp only [adjust_colors, exAdjust, adjSampleAt, adjustLut, List.map,
      List.getD, List.get?, Option.getD]
    norm_num

/-- C1 amended: in `adjust_colors` on an RGB or RGBA image, the multiplier of
each sample is selected by the sample's VALUE modulo 3, not its channel
index: every output sample (pre-clamping) is
`v * coefficients[v % 3]` where `v` is the input sample's value; the alpha
band is transformed by the same value-indexed table. -/
theorem C1_adjust_value_mod3 (img : Img) (rc gc bc : ℚ)
    (hm : img.mode = .RGB ∨ img.mode = .RGBA) (x y c : Nat) :
    adjSampleAt (adjust_colors img rc gc bc) x y c =
      some ((img.sampleAt x y c : ℚ) *
        ([rc, gc, bc].getD (img.sampleAt x y c % 3) 0)) := by
  simp only [adjust_colors]
  rw [if_pos hm]
  simp only [adjSampleAt]
  have h0 : adjustLut rc gc bc 0 = 0 := by
    simp [adjustLut]
  unfold Img.sampleAt Img.pixelAt
  rw [getD_map_fix (fun (row : List (List Nat)) => row.map
        (fun p => p.map (adjustLut rc gc bc)))
      ([] : List (List Nat)) ([] : List (List ℚ)) rfl img.pixels y,
    getD_map_fix (fun (p : List Nat) => p.map (adjustLut rc gc bc))
      ([] : List Nat) ([] : List ℚ) rfl,
    getD_map_fix (adjustLut rc gc bc) 0 0 h0]
  rfl

/-- Witness for the amended C1: a value-10 red sample with coefficients
(1, 2, 3) is scaled by `coefficients[10 % 3] = 2`. -/
theorem C1_adjust_value_mod3_witness :
    adjSampleAt (adjust_colors exAdjust 1 2 3) 0 0 0 =
      some ((exAdjust.sampleAt 0 0 0 : ℚ) *
        ([(1 : ℚ), 2, 3].getD (exAdjust.sampleAt 0 0 0 % 3) 0)) :=
  C1_adjust_value_mod3 exAdjust 1 2 3 (by decide) 0 0 0

/-- Lemma: `getD` of a mapped `List.range` at an in-range index. -/
theorem getD_range_map {β : Type} (f : Nat → β) (n i : Nat) (e : β) (h : i < n) :
    ((List.range n).map f).getD i e = f i := by
  rw [List.getD_eq_getElem _ _ (by simpa using h), List.getElem_map,
    List.getElem_range]

/-- C9: for a palette of `n = len // 3` entries, the export grid is square
with side `floor(sqrt n)` when that squares to exactly `n` and
`floor(sqrt n) + 1` otherwise — the smallest of the two candidate sides whose
square covers `n` — and each cell `(x, y)` with `y*side + x < n` holds
palette entry `y*side + x`, the remaining cells staying black. -/
theorem C9_palette_grid (img : Img) (pal : List Nat)
    (hp : img.palette = some pal) :
    ∃ out, get_palette img = .ok out ∧
      out.height = out.width ∧
      (Nat.sqrt (pal.length / 3) * Nat.sqrt (pal.length / 3) = pal.length / 3 →
        out.width = Nat.sqrt (pal.length / 3)) ∧
      (Nat.sqrt (pal.length / 3) * Nat.sqrt (pal.length / 3) ≠ pal.length / 3 →
        out.width = Nat.sqrt (pal.length / 3) + 1) ∧
      pal.length / 3 ≤ out.width * out.width ∧
      (∀ x y, x < out.width → y < out.width →
        out.pixelAt x y =
          if y * out.width + x < pal.length / 3 then
            [pal.getD ((y * out.width + x) * 3) 0,
             pal.getD ((y * out.width + x) * 3 + 1) 0,
             pal.getD ((y * out.width + x) * 3 + 2) 0]
          else [0, 0, 0]) := by
  simp only [get_palette, hp]
  refine ⟨_, rfl, rfl, ?_, ?_, ?_, ?_⟩
  · intro hsq
    simp only [if_pos hsq]
  · intro hsq
    simp only [if_neg hsq]
  · by_cases hsq : Nat.sqrt (pal.length / 3) * Nat.sqrt (pal.length / 3) = pal.length / 3
    · simp only [if_pos hsq]
      exact le_of_eq hsq.symm
    · simp only [if_neg hsq]
      have h2 := Nat.lt_succ_sqrt (pal.length / 3)
      simpa [Nat.succ_eq_add_one] using le_of_lt h2
  · intro x y hx hy
    unfold Img.pixelAt
    dsimp only
    rw [getD_range_map _ _ _ _ hy, getD_range_map _ _ _ _ hx]

/-- A 1×1 palette-mode image with a 10-entry palette (30 byte values). -/
def exPal : Img :=
  ⟨.P, 1, 1, [[[0]]], some (List.range 30)⟩

/-- Witness for C9 at the 10-entry palette: `sqrt 10 = 3` does not square to
10, so the grid side is 4. -/
theorem C9_palette_grid_witness :
    ∃ out, get_palette exPal = .ok out ∧
      out.height = out.width ∧
      (Nat.sqrt ((List.range 30).length / 3) * Nat.sqrt ((List.range 30).length / 3)
          = (List.range 30).length / 3 →
        out.width = Nat.sqrt ((List.range 30).length / 3)) ∧
      (Nat.sqrt ((List.range 30).length / 3) * Nat.sqrt ((List.range 30).length / 3)
          ≠ (List.range 30).length / 3 →
        out.width = Nat.sqrt ((List.range 30).length / 3) + 1) ∧
      (List.range 30).length / 3 ≤ out.width * out.width ∧
      (∀ x y, x < out.width → y < out.width →
        out.pixelAt x y =
          if y * out.width + x < (List.range 30).length / 3 then
            [(List.range 30).getD ((y * out.width + x) * 3) 0,
             (List.range 30).getD ((y * out.width + x) * 3 + 1) 0,
             (List.range 30).getD ((y * out.width + x) * 3 + 2) 0]
          else [0, 0, 0]) :=
  C9_palette_grid exPal (List.range 30) rfl

/-- Data of a string concatenation. -/
theorem string_data_append (a b : String) : (a ++ b).data = a.data ++ b.data := by
  cases a
  cases b
  rfl

/-- Strings that differ in their first or second character differ. -/
theorem string_ne_of_head2 (s t : String)
    (h : s.data.head? ≠ t.data.head? ∨ s.data.tail.head? ≠ t.data.tail.head?) :
    s ≠ t := by
  intro he
  rw [he] at h
  rcases h with h | h <;> exact h rfl

/-- The only error `indexTrue` ever returns is the missing-element
`ValueError` of `list.index`. -/
theorem indexTrue_error : ∀ (l : List Bool) (e : PyExc),
    indexTrue l = .error e → e = indexMissingError
  | [], e, h => by
      simp only [indexTrue, Except.error.injEq] at h
      exact h.symm
  | b :: l, e, h => by
      cases b with
      | true => simp [indexTrue] at h
      | false =>
          simp only [indexTrue, Bool.false_eq_true, if_false] at h
          cases hi : indexTrue l with
          | ok n =>
              rw [hi] at h
              simp [Except.map] at h
          | error e2 =>
              rw [hi] at h
              simp only [Except.map, Except.error.injEq] at h
              rw [← h]
              exact indexTrue_error l e2 hi

/-- C10: every failure any operation returns carries the single Python
exception class `ValueError`; the spec's error kinds (`FileNotFoundError`,
`InvalidBoundsError`, `NoPaletteError`, `UnsupportedModeError`) are
distinguishable only by their message text, which indeed differs across
kinds for all parameter values. -/
theorem C10_every_error_is_ValueError :
    (∀ (b : Bool) (p : String) (e : PyExc),
      checkFile b p = .error e → e.cls = "ValueError") ∧
    (∀ (img : Img) (l u r lo : Int) (e : PyExc),
      crop_image img l u r lo = .error e → e.cls = "ValueError") ∧
    (∀ (img : Img) (e : PyExc),
      crop_empty img = .error e → e.cls = "ValueError") ∧
    (∀ (img : Img) (e : PyExc),
      get_palette img = .error e → e.cls = "ValueError") ∧
    (∀ (img : Img) (rc gc bc : ℚ) (e : PyExc),
      adjust_colors img rc gc bc = .error e → e.cls = "ValueError") ∧
    (∀ (img : Img) (e : PyExc),
      invert_colors img = .error e → e.cls = "ValueError") ∧
    (∀ (p : String) (w h : Nat) (m m2 : Mode),
      (fileNotFoundError p).msg ≠ (cropDimsError w h).msg ∧
      (fileNotFoundError p).msg ≠ cropOrderError.msg ∧
      (fileNotFoundError p).msg ≠ noPaletteError.msg ∧
      (fileNotFoundError p).msg ≠ (adjustModeError m).msg ∧
      (fileNotFoundError p).msg ≠ (invertModeError m2).msg ∧
      (cropDimsError w h).msg ≠ noPaletteError.msg ∧
      cropOrderError.msg ≠ noPaletteError.msg ∧
      (cropDimsError w h).msg ≠ (adjustModeError m).msg ∧
      (cropDimsError w h).msg ≠ (invertModeError m2).msg ∧
      cropOrderError.msg ≠ (adjustModeError m).msg ∧
      cropOrderError.msg ≠ (invertModeError m2).msg ∧
      noPaletteError.msg ≠ (adjustModeError m).msg ∧
      noPaletteError.msg ≠ (invertModeError m2).msg) := by
  refine ⟨?_, ?_, ?_, ?_, ?_, ?_, ?_⟩
  · intro b p e h
    simp only [checkFile] at h
    split at h
    · simp at h
    · injection h with h2
      rw [← h2]
      rfl
  · intro img l u r lo e h
    simp only [crop_image] at h
    split at h
    · injection h with h2
      rw [← h2]
      rfl
    · split at h
      · injection h with h2
        rw [← h2]
        rfl
      · simp at h
  · intro img e h
    simp only [crop_empty] at h
    split at h
    · rename_i e1 heq
      injection h with h2
      rw [← h2, indexTrue_error _ _ heq]
      rfl
    · split at h
      · rename_i e1 heq
        injection h with h2
        rw [← h2, indexTrue_error _ _ heq]
        rfl
      · split at h
        · rename_i e1 heq
          injection h with h2
          rw [← h2, indexTrue_error _ _ heq]
          rfl
        · split at h
          · rename_i e1 heq
            injection h with h2
            rw [← h2, indexTrue_error _ _ heq]
            rfl
          · simp at h
  · intro img e h
    simp only [get_palette] at h
    split at h
    · injection h with h2
      rw [← h2]
      rfl
    · simp at h
  · intro img rc gc bc e h
    simp only [adjust_colors] at h
    split at h
    · simp at h
    · injection h with h2
      rw [← h2]
      rfl
  · intro img e h
    simp only [invert_colors] at h
    split at h
    · simp at h
    · injection h with h2
      rw [← h2]
      rfl
  · intro p w h m m2
    refine ⟨?_, ?_, ?_, ?_, ?_, ?_, ?_, ?_, ?_, ?_, ?_, ?_, ?_⟩ <;>
      · apply string_ne_of_head2
        simp only [fileNotFoundError, cropDimsError, cropOrderError, noPaletteError,
          adjustModeError, invertModeError, cropDimsMsg, cropOrderMsg,
          string_data_append, List.cons_append, List.head?_cons, List.tail_cons]
        decide

/-- Witness for C10: the missing-file error on a concrete path, a concrete
invalid crop, and one concrete pair of kind-distinct messages. -/
theorem C10_every_error_is_ValueError_witness :
    checkFile false "photo.png" = .error (fileNotFoundError "photo.png") ∧
    (fileNotFoundError "photo.png").cls = "ValueError" ∧
    cropOrderError.cls = "ValueError" ∧
    (fileNotFoundError "photo.png").msg ≠ noPaletteError.msg :=
  ⟨rfl,
   C10_every_error_is_ValueError.1 false "photo.png" (fileNotFoundError "photo.png") rfl,
   C10_every_error_is_ValueError.2.1 exBlack 0 0 0 1 cropOrderError rfl,
   (C10_every_error_is_ValueError.2.2.2.2.2.2 "photo.png" 1 1 Mode.L Mode.L).2.2.1⟩

end PyPica
